import Mathlib

/-!
Verification of `src/hash_utils.py` (streamlit-hash-demo).

The file embeds the pure computation layer of the repository:

* `hash_text`, `hash_file_chunked`, `_get_hasher`, `hmac_text` and
  `compare_hashes` are translated from `src/hash_utils.py`.
* The runtime cryptographic provider (`hashlib`) is modelled by executable
  Lean implementations of SHA-1, SHA-256, SHA-512 and BLAKE2b, following
  FIPS 180-4 and RFC 7693, which is the documented behaviour of `hashlib`
  for these algorithm names.
* Errors raised by the Python runtime are modelled with an explicit
  `Except` monad (`PyError`).

Bytes are modelled as natural numbers (`Nat`); all byte values produced by
the encoder are below 256.  Machine words are `Nat` with explicit
reduction modulo `2 ^ 32` or `2 ^ 64` wherever the corresponding Python
or C computation would wrap.
-/

set_option maxRecDepth 100000

namespace HashDemo

/-! ### Hexadecimal rendering (lowercase, as produced by `hexdigest`) -/

/-- Lowercase hexadecimal digit for a value below 16 (total on `Nat`). -/
def hexDigitAux : Nat → Char
  | 0 => '0' | 1 => '1' | 2 => '2' | 3 => '3'
  | 4 => '4' | 5 => '5' | 6 => '6' | 7 => '7'
  | 8 => '8' | 9 => '9' | 10 => 'a' | 11 => 'b'
  | 12 => 'c' | 13 => 'd' | 14 => 'e' | _ => 'f'

/-- Lowercase hexadecimal digit of `n % 16`. -/
def hexDigit (n : Nat) : Char := hexDigitAux (n % 16)

/-- Fixed-width big-endian hexadecimal rendering: exactly `w` characters. -/
def toHexChars : Nat → Nat → List Char
  | 0, _ => []
  | w + 1, n => toHexChars w (n / 16) ++ [hexDigit n]

/-- `k` little-endian bytes of `n`. -/
def toBytesLE : Nat → Nat → List Nat
  | 0, _ => []
  | k + 1, n => (n % 256) :: toBytesLE k (n / 256)

/-- `k` big-endian bytes of `n`. -/
def toBytesBE (k n : Nat) : List Nat := (toBytesLE k n).reverse

/-- Big-endian value of a byte list. -/
def beVal (l : List Nat) : Nat := l.foldl (fun a b => a * 256 + b) 0

/-- Little-endian value of a byte list. -/
def leVal (l : List Nat) : Nat := l.foldr (fun b a => a * 256 + b) 0

/-- Chunk splitting with explicit recursion fuel (structural recursion,
so that concrete digests evaluate inside the kernel).  `chunksOf` below
supplies enough fuel and proves the intended recurrence. -/
def chunksOfFuel {α : Type} : Nat → Nat → List α → List (List α)
  | 0, _, _ => []
  | fuel + 1, n, l =>
    if (l.take n).isEmpty then []
    else l.take n :: chunksOfFuel fuel n (l.drop n)

/-- Split a list into consecutive chunks of at most `n` elements; every
chunk is non-empty, and for `n ≥ 1` the chunks concatenate back to the
input list. -/
def chunksOf {α : Type} (n : Nat) (l : List α) : List (List α) :=
  chunksOfFuel (l.length + 1) n l

/-! ### UTF-8 encoding (model of Python `str.encode("utf-8")`) -/

/-- UTF-8 encoding of a single Unicode scalar value. -/
def utf8EncodeChar (c : Char) : List Nat :=
  let n := c.toNat
  if n < 0x80 then [n]
  else if n < 0x800 then [0xc0 + n / 64, 0x80 + n % 64]
  else if n < 0x10000 then
    [0xe0 + n / 4096, 0x80 + (n / 64) % 64, 0x80 + n % 64]
  else
    [0xf0 + n / 262144, 0x80 + (n / 4096) % 64, 0x80 + (n / 64) % 64,
     0x80 + n % 64]

/-- UTF-8 encoding of a string as a byte list. -/
def utf8Encode (s : String) : List Nat := (s.data.map utf8EncodeChar).flatten

/-! ### Word rotations -/

/-- Right rotation of a `w`-bit word. -/
def rotr (w k x : Nat) : Nat := (x >>> k) ||| ((x <<< (w - k)) % 2 ^ w)

/-- Left rotation of a `w`-bit word. -/
def rotl (w k x : Nat) : Nat := ((x <<< k) % 2 ^ w) ||| (x >>> (w - k))

/-! ### SHA-256 (FIPS 180-4), the model of `hashlib.new("sha256")` -/

/-- Eight-word hash state (used for SHA-256 and SHA-512). -/
structure Hash8 where
  s0 : Nat
  s1 : Nat
  s2 : Nat
  s3 : Nat
  s4 : Nat
  s5 : Nat
  s6 : Nat
  s7 : Nat
deriving DecidableEq, Repr

/-- SHA-256 round constants `K[0..63]` of FIPS 180-4 (the first 32 bits of
the fractional parts of the cube roots of the first 64 primes, here in
decimal; the first entry is 0x428a2f98, the last 0xc67178f2). -/
def sha256K : List Nat :=
  [1116352408, 1899447441, 3049323471, 3921009573, 961987163, 1508970993,
   2453635748, 2870763221, 3624381080, 310598401, 607225278, 1426881987,
   1925078388, 2162078206, 2614888103, 3248222580, 3835390401, 4022224774,
   264347078, 604807628, 770255983, 1249150122, 1555081692, 1996064986,
   2554220882, 2821834349, 2952996808, 3210313671, 3336571891, 3584528711,
   113926993, 338241895, 666307205, 773529912, 1294757372, 1396182291,
   1695183700, 1986661051, 2177026350, 2456956037, 2730485921, 2820302411,
   3259730800, 3345764771, 3516065817, 3600352804, 4094571909, 275423344,
   430227734, 506948616, 659060556, 883997877, 958139571, 1322822218,
   1537002063, 1747873779, 1955562222, 2024104815, 2227730452, 2361852424,
   2428436474, 2756734187, 3204031479, 3329325298]

/-- SHA-256 initial hash value `H0[0..7]` of FIPS 180-4 (in decimal; the
first word is 0x6a09e667, the last 0x5be0cd19). -/
def sha256Init : Hash8 :=
  ⟨1779033703, 3144134277, 1013904242, 2773480762,
   1359893119, 2600822924, 528734635, 1541459225⟩

/-- One message-schedule extension step; the list holds the schedule words
newest first. -/
def sha256Extend (rev : List Nat) : List Nat :=
  let g := fun (k : Nat) => rev.getD k 0
  let t0 := rotr 32 7 (g 14) ^^^ rotr 32 18 (g 14) ^^^ ((g 14) >>> 3)
  let t1 := rotr 32 17 (g 1) ^^^ rotr 32 19 (g 1) ^^^ ((g 1) >>> 10)
  ((g 15 + t0 + g 6 + t1) % 2 ^ 32) :: rev

/-- The 64-word SHA-256 message schedule of one 64-byte block. -/
def sha256Schedule (block : List Nat) : List Nat :=
  ((List.range 48).foldl (fun rev _ => sha256Extend rev)
    (((chunksOf 4 block).map beVal).reverse)).reverse

/-- One SHA-256 round, consuming one `(K, W)` pair. -/
def sha256Round (st : Hash8) (kw : Nat × Nat) : Hash8 :=
  let e := st.s4
  let bigS1 := rotr 32 6 e ^^^ rotr 32 11 e ^^^ rotr 32 25 e
  let ch := (e &&& st.s5) ^^^ ((0xffffffff ^^^ e) &&& st.s6)
  let temp1 := (st.s7 + bigS1 + ch + kw.1 + kw.2) % 2 ^ 32
  let a := st.s0
  let bigS0 := rotr 32 2 a ^^^ rotr 32 13 a ^^^ rotr 32 22 a
  let maj := (a &&& st.s1) ^^^ (a &&& st.s2) ^^^ (st.s1 &&& st.s2)
  let temp2 := (bigS0 + maj) % 2 ^ 32
  ⟨(temp1 + temp2) % 2 ^ 32, st.s0, st.s1, st.s2,
   (st.s3 + temp1) % 2 ^ 32, st.s4, st.s5, st.s6⟩

/-- SHA-256 compression of a single 64-byte block. -/
def sha256Compress (H : Hash8) (block : List Nat) : Hash8 :=
  let v := (sha256K.zip (sha256Schedule block)).foldl sha256Round H
  ⟨(H.s0 + v.s0) % 2 ^ 32, (H.s1 + v.s1) % 2 ^ 32,
   (H.s2 + v.s2) % 2 ^ 32, (H.s3 + v.s3) % 2 ^ 32,
   (H.s4 + v.s4) % 2 ^ 32, (H.s5 + v.s5) % 2 ^ 32,
   (H.s6 + v.s6) % 2 ^ 32, (H.s7 + v.s7) % 2 ^ 32⟩

/-- Merkle–Damgård padding for SHA-1/SHA-256: `0x80`, zeros, then the
message bit length as 8 big-endian bytes, to a multiple of 64 bytes. -/
def sha256Pad (msg : List Nat) : List Nat :=
  let ml := msg.length
  msg ++ 0x80 :: List.replicate ((119 - ml % 64) % 64) 0
      ++ toBytesBE 8 ((8 * ml) % 2 ^ 64)

/-- SHA-256 state after absorbing a whole byte message. -/
def sha256Words (msg : List Nat) : Hash8 :=
  (chunksOf 64 (sha256Pad msg)).foldl sha256Compress sha256Init

/-- SHA-256 digest as 32 bytes. -/
def sha256Bytes (msg : List Nat) : List Nat :=
  let H := sha256Words msg
  toBytesBE 4 H.s0 ++ toBytesBE 4 H.s1 ++ toBytesBE 4 H.s2 ++
  toBytesBE 4 H.s3 ++ toBytesBE 4 H.s4 ++ toBytesBE 4 H.s5 ++
  toBytesBE 4 H.s6 ++ toBytesBE 4 H.s7

/-- SHA-256 hexadecimal digest (64 lowercase hex characters). -/
def sha256Hex (msg : List Nat) : String :=
  let H := sha256Words msg
  String.mk (toHexChars 8 H.s0 ++ toHexChars 8 H.s1 ++ toHexChars 8 H.s2 ++
    toHexChars 8 H.s3 ++ toHexChars 8 H.s4 ++ toHexChars 8 H.s5 ++
    toHexChars 8 H.s6 ++ toHexChars 8 H.s7)

/-! ### SHA-1 (FIPS 180-4), the model of `hashlib.new("sha1")` -/

/-- Five-word hash state for SHA-1. -/
structure Hash5 where
  s0 : Nat
  s1 : Nat
  s2 : Nat
  s3 : Nat
  s4 : Nat
deriving DecidableEq, Repr

/-- SHA-1 initial hash value of FIPS 180-4 (in decimal; the first word is
0x67452301, the last 0xc3d2e1f0). -/
def sha1Init : Hash5 :=
  ⟨1732584193, 4023233417, 2562383102, 271733878, 3285377520⟩

/-- One SHA-1 message-schedule extension step (newest word first). -/
def sha1Extend (rev : List Nat) : List Nat :=
  let g := fun (k : Nat) => rev.getD k 0
  rotl 32 1 (g 2 ^^^ g 7 ^^^ g 13 ^^^ g 15) :: rev

/-- The 80-word SHA-1 message schedule of one 64-byte block. -/
def sha1Schedule (block : List Nat) : List Nat :=
  ((List.range 64).foldl (fun rev _ => sha1Extend rev)
    (((chunksOf 4 block).map beVal).reverse)).reverse

/-- One SHA-1 round, consuming the pair (round index, schedule word). -/
def sha1Round (st : Hash5) (iw : Nat × Nat) : Hash5 :=
  let b := st.s1
  let c := st.s2
  let d := st.s3
  let f :=
    if iw.1 < 20 then (b &&& c) ||| ((0xffffffff ^^^ b) &&& d)
    else if iw.1 < 40 then b ^^^ c ^^^ d
    else if iw.1 < 60 then (b &&& c) ||| (b &&& d) ||| (c &&& d)
    else b ^^^ c ^^^ d
  let k :=
    if iw.1 < 20 then 0x5a827999
    else if iw.1 < 40 then 0x6ed9eba1
    else if iw.1 < 60 then 0x8f1bbcdc
    else 0xca62c1d6
  let temp := (rotl 32 5 st.s0 + f + st.s4 + k + iw.2) % 2 ^ 32
  ⟨temp, st.s0, rotl 32 30 st.s1, st.s2, st.s3⟩

/-- SHA-1 compression of a single 64-byte block. -/
def sha1Compress (H : Hash5) (block : List Nat) : Hash5 :=
  let v := ((sha1Schedule block).enum).foldl sha1Round H
  ⟨(H.s0 + v.s0) % 2 ^ 32, (H.s1 + v.s1) % 2 ^ 32,
   (H.s2 + v.s2) % 2 ^ 32, (H.s3 + v.s3) % 2 ^ 32,
   (H.s4 + v.s4) % 2 ^ 32⟩

/-- SHA-1 state after absorbing a whole byte message (same padding as
SHA-256). -/
def sha1Words (msg : List Nat) : Hash5 :=
  (chunksOf 64 (sha256Pad msg)).foldl sha1Compress sha1Init

/-- SHA-1 hexadecimal digest (40 lowercase hex characters). -/
def sha1Hex (msg : List Nat) : String :=
  let H := sha1Words msg
  String.mk (toHexChars 8 H.s0 ++ toHexChars 8 H.s1 ++ toHexChars 8 H.s2 ++
    toHexChars 8 H.s3 ++ toHexChars 8 H.s4)

/-! ### SHA-512 (FIPS 180-4), the model of `hashlib.new("sha512")` -/

/-- SHA-512 round constants `K[0..79]` of FIPS 180-4 (the first 64 bits of
the fractional parts of the cube roots of the first 80 primes, here in
decimal; the first entry is 0x428a2f98d728ae22, the last
0x6c44198c4a475817). -/
def sha512K : List Nat :=
  [4794697086780616226, 8158064640168781261, 13096744586834688815,
   16840607885511220156, 4131703408338449720, 6480981068601479193,
   10538285296894168987, 12329834152419229976, 15566598209576043074,
   1334009975649890238, 2608012711638119052, 6128411473006802146,
   8268148722764581231, 9286055187155687089, 11230858885718282805,
   13951009754708518548, 16472876342353939154, 17275323862435702243,
   1135362057144423861, 2597628984639134821, 3308224258029322869,
   5365058923640841347, 6679025012923562964, 8573033837759648693,
   10970295158949994411, 12119686244451234320, 12683024718118986047,
   13788192230050041572, 14330467153632333762, 15395433587784984357,
   489312712824947311, 1452737877330783856, 2861767655752347644,
   3322285676063803686, 5560940570517711597, 5996557281743188959,
   7280758554555802590, 8532644243296465576, 9350256976987008742,
   10552545826968843579, 11727347734174303076, 12113106623233404929,
   14000437183269869457, 14369950271660146224, 15101387698204529176,
   15463397548674623760, 17586052441742319658, 1182934255886127544,
   1847814050463011016, 2177327727835720531, 2830643537854262169,
   3796741975233480872, 4115178125766777443, 5681478168544905931,
   6601373596472566643, 7507060721942968483, 8399075790359081724,
   8693463985226723168, 9568029438360202098, 10144078919501101548,
   10430055236837252648, 11840083180663258601, 13761210420658862357,
   14299343276471374635, 14566680578165727644, 15097957966210449927,
   16922976911328602910, 17689382322260857208, 500013540394364858,
   748580250866718886, 1242879168328830382, 1977374033974150939,
   2944078676154940804, 3659926193048069267, 4368137639120453308,
   4836135668995329356, 5532061633213252278, 6448918945643986474,
   6902733635092675308, 7801388544844847127]

/-- SHA-512 initial hash value `H0[0..7]` of FIPS 180-4 (in decimal; the
first word is 0x6a09e667f3bcc908, the last 0x5be0cd19137e2179). -/
def sha512Init : Hash8 :=
  ⟨7640891576956012808, 13503953896175478587, 4354685564936845355,
   11912009170470909681, 5840696475078001361, 11170449401992604703,
   2270897969802886507, 6620516959819538809⟩

/-- One SHA-512 message-schedule extension step (newest word first). -/
def sha512Extend (rev : List Nat) : List Nat :=
  let g := fun (k : Nat) => rev.getD k 0
  let t0 := rotr 64 1 (g 14) ^^^ rotr 64 8 (g 14) ^^^ ((g 14) >>> 7)
  let t1 := rotr 64 19 (g 1) ^^^ rotr 64 61 (g 1) ^^^ ((g 1) >>> 6)
  ((g 15 + t0 + g 6 + t1) % 2 ^ 64) :: rev

/-- The 80-word SHA-512 message schedule of one 128-byte block. -/
def sha512Schedule (block : List Nat) : List Nat :=
  ((List.range 64).foldl (fun rev _ => sha512Extend rev)
    (((chunksOf 8 block).map beVal).reverse)).reverse

/-- One SHA-512 round, consuming one `(K, W)` pair. -/
def sha512Round (st : Hash8) (kw : Nat × Nat) : Hash8 :=
  let e := st.s4
  let bigS1 := rotr 64 14 e ^^^ rotr 64 18 e ^^^ rotr 64 41 e
  let ch := (e &&& st.s5) ^^^ (((2 ^ 64 - 1) ^^^ e) &&& st.s6)
  let temp1 := (st.s7 + bigS1 + ch + kw.1 + kw.2) % 2 ^ 64
  let a := st.s0
  let bigS0 := rotr 64 28 a ^^^ rotr 64 34 a ^^^ rotr 64 39 a
  let maj := (a &&& st.s1) ^^^ (a &&& st.s2) ^^^ (st.s1 &&& st.s2)
  let temp2 := (bigS0 + maj) % 2 ^ 64
  ⟨(temp1 + temp2) % 2 ^ 64, st.s0, st.s1, st.s2,
   (st.s3 + temp1) % 2 ^ 64, st.s4, st.s5, st.s6⟩

/-- SHA-512 compression of a single 128-byte block. -/
def sha512Compress (H : Hash8) (block : List Nat) : Hash8 :=
  let v := (sha512K.zip (sha512Schedule block)).foldl sha512Round H
  ⟨(H.s0 + v.s0) % 2 ^ 64, (H.s1 + v.s1) % 2 ^ 64,
   (H.s2 + v.s2) % 2 ^ 64, (H.s3 + v.s3) % 2 ^ 64,
   (H.s4 + v.s4) % 2 ^ 64, (H.s5 + v.s5) % 2 ^ 64,
   (H.s6 + v.s6) % 2 ^ 64, (H.s7 + v.s7) % 2 ^ 64⟩

/-- SHA-512 padding: `0x80`, zeros, then the message bit length as 16
big-endian bytes, to a multiple of 128 bytes. -/
def sha512Pad (msg : List Nat) : List Nat :=
  let ml := msg.length
  msg ++ 0x80 :: List.replicate ((239 - ml % 128) % 128) 0
      ++ toBytesBE 16 ((8 * ml) % 2 ^ 128)

/-- SHA-512 state after absorbing a whole byte message. -/
def sha512Words (msg : List Nat) : Hash8 :=
  (chunksOf 128 (sha512Pad msg)).foldl sha512Compress sha512Init

/-- SHA-512 hexadecimal digest (128 lowercase hex characters). -/
def sha512Hex (msg : List Nat) : String :=
  let H := sha512Words msg
  String.mk (toHexChars 16 H.s0 ++ toHexChars 16 H.s1 ++
    toHexChars 16 H.s2 ++ toHexChars 16 H.s3 ++ toHexChars 16 H.s4 ++
    toHexChars 16 H.s5 ++ toHexChars 16 H.s6 ++ toHexChars 16 H.s7)

/-! ### BLAKE2b (RFC 7693), the model of `hashlib.blake2b` at its default
64-byte digest size, no key -/

/-- BLAKE2b initialization vector of RFC 7693 — the SHA-512 initial hash
words (in decimal; the first word is 0x6a09e667f3bcc908). -/
def blake2bIV : List Nat :=
  [7640891576956012808, 13503953896175478587, 4354685564936845355,
   11912009170470909681, 5840696475078001361, 11170449401992604703,
   2270897969802886507, 6620516959819538809]

/-- BLAKE2b message word permutations. -/
def blake2bSigma : List (List Nat) :=
  [[0, 1, 2, 3, 4, 5, 6, 7, 8, 9, 10, 11, 12, 13, 14, 15],
   [14, 10, 4, 8, 9, 15, 13, 6, 1, 12, 0, 2, 11, 7, 5, 3],
   [11, 8, 12, 0, 5, 2, 15, 13, 10, 14, 3, 6, 7, 1, 9, 4],
   [7, 9, 3, 1, 13, 12, 11, 14, 2, 6, 5, 10, 4, 0, 15, 8],
   [9, 0, 5, 7, 2, 4, 10, 15, 14, 1, 11, 12, 6, 8, 3, 13],
   [2, 12, 6, 10, 0, 11, 8, 3, 4, 13, 7, 5, 15, 14, 1, 9],
   [12, 5, 1, 15, 14, 13, 4, 10, 0, 7, 6, 3, 9, 2, 8, 11],
   [13, 11, 7, 14, 12, 1, 3, 9, 5, 0, 15, 4, 8, 6, 2, 10],
   [6, 15, 14, 9, 11, 3, 0, 8, 12, 2, 13, 7, 1, 4, 10, 5],
   [10, 2, 8, 4, 7, 6, 1, 5, 15, 11, 9, 14, 3, 12, 13, 0]]

/-- The BLAKE2b mixing function G on the 16-word working vector. -/
def blake2bG (v : List Nat) (a b c d x y : Nat) : List Nat :=
  let va := (v.getD a 0 + v.getD b 0 + x) % 2 ^ 64
  let vd := rotr 64 32 (v.getD d 0 ^^^ va)
  let vc := (v.getD c 0 + vd) % 2 ^ 64
  let vb := rotr 64 24 (v.getD b 0 ^^^ vc)
  let va := (va + vb + y) % 2 ^ 64
  let vd := rotr 64 16 (vd ^^^ va)
  let vc := (vc + vd) % 2 ^ 64
  let vb := rotr 64 63 (vb ^^^ vc)
  (((v.set a va).set b vb).set c vc).set d vd

/-- One BLAKE2b round over the working vector, with `m` the 16 message
words of the current block. -/
def blake2bRound (m : List Nat) (v : List Nat) (r : Nat) : List Nat :=
  let s := blake2bSigma.getD (r % 10) []
  let mi := fun (k : Nat) => m.getD (s.getD k 0) 0
  let v := blake2bG v 0 4 8 12 (mi 0) (mi 1)
  let v := blake2bG v 1 5 9 13 (mi 2) (mi 3)
  let v := blake2bG v 2 6 10 14 (mi 4) (mi 5)
  let v := blake2bG v 3 7 11 15 (mi 6) (mi 7)
  let v := blake2bG v 0 5 10 15 (mi 8) (mi 9)
  let v := blake2bG v 1 6 11 12 (mi 10) (mi 11)
  let v := blake2bG v 2 7 8 13 (mi 12) (mi 13)
  blake2bG v 3 4 9 14 (mi 14) (mi 15)

/-- BLAKE2b compression of one 128-byte block; `t` is the byte counter and
`last` the final-block flag. -/
def blake2bCompress (h : List Nat) (block : List Nat) (t : Nat)
    (last : Bool) : List Nat :=
  let m := (chunksOf 8 block).map leVal
  let v := h ++ blake2bIV
  let v := v.set 12 (v.getD 12 0 ^^^ (t % 2 ^ 64))
  let v := v.set 13 (v.getD 13 0 ^^^ (t / 2 ^ 64 % 2 ^ 64))
  let v := if last then v.set 14 (v.getD 14 0 ^^^ (2 ^ 64 - 1)) else v
  let v := (List.range 12).foldl (blake2bRound m) v
  (List.range 8).map (fun i => h.getD i 0 ^^^ v.getD i 0 ^^^ v.getD (i + 8) 0)

/-- BLAKE2b initial state: IV with the parameter word for digest size 64,
no key, fanout 1, depth 1 mixed into the first word. -/
def blake2bInitState : List Nat :=
  blake2bIV.set 0 (blake2bIV.getD 0 0 ^^^ 0x01010040)

/-- BLAKE2b block loop: all blocks but the last use an incremented byte
counter; the last block is zero-padded to 128 bytes and flagged final. -/
def blake2bLoop (h : List Nat) (off : Nat) (rest : List Nat) : List Nat :=
  if rest.length ≤ 128 then
    blake2bCompress h (rest ++ List.replicate (128 - rest.length) 0)
      (off + rest.length) true
  else
    blake2bLoop (blake2bCompress h (rest.take 128) (off + 128) false)
      (off + 128) (rest.drop 128)
termination_by rest.length
decreasing_by
  simp only [List.length_drop]
  omega

/-- BLAKE2b final state words for a whole byte message. -/
def blake2bWords (msg : List Nat) : List Nat :=
  blake2bLoop blake2bInitState 0 msg

/-- BLAKE2b digest as 64 bytes (state words rendered little-endian). -/
def blake2bBytes (msg : List Nat) : List Nat :=
  ((blake2bWords msg).map (toBytesLE 8)).flatten

/-- BLAKE2b hexadecimal digest (128 lowercase hex characters). -/
def blake2bHex (msg : List Nat) : String :=
  String.mk (((blake2bBytes msg).map (toHexChars 2)).flatten)

/-! ### Reference HMAC-SHA256 -/

/-- Modelled from the spec: the standard HMAC construction (RFC 2104) over
SHA-256 — two-pass nested hashing with the key zero-padded to the 64-byte
block size and XORed with the inner pad `0x36` and outer pad `0x5c`.
`hash_utils.py` names but does not itself implement this construction (it
delegates to the `hmac` library); this definition is the comparison target
the spec designates. -/
def hmacSha256Spec (key msg : List Nat) : String :=
  let key := if 64 < key.length then sha256Bytes key else key
  let key := key ++ List.replicate (64 - key.length) 0
  let ipad := key.map (fun b => b ^^^ 0x36)
  let opad := key.map (fun b => b ^^^ 0x5c)
  sha256Hex (opad ++ sha256Bytes (ipad ++ msg))

/-! ### The Python runtime model -/

/-- Python exceptions that the embedded functions can raise. -/
inductive PyError where
  | valueError (msg : String)
  | typeError (msg : String)
  | attributeError (msg : String)
deriving DecidableEq, Repr

deriving instance DecidableEq for Except

/-- The fixed algorithm-name set of the provider
(`hashlib.algorithms_guaranteed`); the runtime set
`hashlib.algorithms_available` is a superset of it and is modelled by the
same list, which is exact on every name any claim mentions. -/
def hashlib_algorithms : List String :=
  ["blake2b", "blake2s", "md5", "sha1", "sha224", "sha256", "sha384",
   "sha3_224", "sha3_256", "sha3_384", "sha3_512", "sha512",
   "shake_128", "shake_256"]

/-- Model of Python `str.lower()` (exact on the ASCII algorithm names the
program works with). -/
def pyLower (s : String) : String := String.mk (s.data.map Char.toLower)

/-- Digest of the accumulated bytes under a resolved algorithm name.
The four supported algorithms (`DEFAULT_ALGOS` in the source) are modelled
exactly; the remaining provider algorithms are not modelled (no claim
depends on their digest values) and map to the empty string. -/
def digestHex (name : String) (data : List Nat) : String :=
  if name = "sha1" then sha1Hex data
  else if name = "sha256" then sha256Hex data
  else if name = "sha512" then sha512Hex data
  else if name = "blake2b" then blake2bHex data
  else ""

/-! ### Embedding of `src/hash_utils.py` -/

/-- `DEFAULT_ALGOS` (hash_utils.py line 25). -/
def DEFAULT_ALGOS : List String := ["sha256", "sha1", "sha512", "blake2b"]

/-- The `ValueError` message raised by `_get_hasher`. -/
def unsupportedMsg (name : String) : String :=
  "Algoritmo " ++ name ++ " no soportado en este entorno."

/-- `_get_hasher` (hash_utils.py lines 27-40): lowercases the name, checks
provider availability, raises `ValueError` otherwise; a hash constructor
is modelled by the resolved algorithm name.  The `blake2b` remapping
branch of the source is kept although it is unreachable (`blake2b` is in
the guaranteed set, so the outer test already accepts it). -/
def _get_hasher (name : String) : Except PyError String :=
  let name := pyLower name
  if name ∉ hashlib_algorithms ∧ name ∉ hashlib_algorithms then
    if name = "blake2b" ∧ "blake2b" ∈ hashlib_algorithms then .ok "blake2b"
    else .error (.valueError (unsupportedMsg name))
  else .ok name

/-- `hash_text` (hash_utils.py lines 42-51) with the default UTF-8
encoding: resolve the algorithm, feed the encoded text, return the hex
digest. -/
def hash_text (text : String) (algorithm : String) : Except PyError String :=
  match _get_hasher algorithm with
  | .error e => .error e
  | .ok algo => .ok (digestHex algo (utf8Encode text))

/-- Errors a progress callback may raise (caught by `except Exception`
in the source). -/
inductive CallbackErr where
  | exc (msg : String)
deriving DecidableEq, Repr

/-- `try: progress_callback(total)  except Exception: pass` — the
callback's outcome is discarded either way. -/
def swallow : Except CallbackErr Unit → Unit := fun _ => ()

/-- The read loop of `hash_file_chunked` (hash_utils.py lines 63-75).
The stream is a byte list; `file_obj.read(chunk_size)` yields the next
`chunk_size` bytes (the `str` re-encoding branch of the source does not
arise for byte streams).  Returns the accumulated hasher buffer together
with the sequence of cumulative totals passed to the progress callback. -/
def hashFileLoop (chunk_size : Nat)
    (progress_callback : Option (Nat → Except CallbackErr Unit))
    (buffer : List Nat) (total : Nat) (rest : List Nat) :
    List Nat × List Nat :=
  if h : (rest.take chunk_size).isEmpty then (buffer, [])
  else
    let chunk := rest.take chunk_size
    let total := total + chunk.length
    let _ : Unit :=
      match progress_callback with
      | some cb => swallow (cb total)
      | none => ()
    let r := hashFileLoop chunk_size progress_callback (buffer ++ chunk)
      total (rest.drop chunk_size)
    (r.1, total :: r.2)
termination_by rest.length
decreasing_by
  rw [List.isEmpty_iff, List.take_eq_nil_iff] at h
  push_neg at h
  simp only [List.length_drop]
  exact Nat.sub_lt (List.length_pos.mpr h.2) (Nat.pos_of_ne_zero h.1)

/-- `hash_file_chunked` (hash_utils.py lines 53-76). -/
def hash_file_chunked (stream : List Nat) (algorithm : String)
    (chunk_size : Nat)
    (progress_callback : Option (Nat → Except CallbackErr Unit)) :
    Except PyError String :=
  match _get_hasher algorithm with
  | .error e => .error e
  | .ok algo =>
      .ok (digestHex algo
        (hashFileLoop chunk_size progress_callback [] 0 stream).1)

/-- The cumulative byte totals `hash_file_chunked` passes to its progress
callback, in order of invocation. -/
def progress_calls (chunk_size : Nat) (stream : List Nat) : List Nat :=
  (hashFileLoop chunk_size none [] 0 stream).2

/-- `hashlib.new(name)`: returns a hash object (modelled by its algorithm
name) or raises `ValueError` for an unavailable name. -/
def hashlib_new (name : String) : Except PyError String :=
  if name ∈ hashlib_algorithms then .ok name
  else .error (.valueError ("unsupported hash type " ++ name))

/-- The Python type name of the hash object `hashlib.new` returns, as it
appears in `AttributeError` messages. -/
def hashObjTypeName (algo : String) : String :=
  if algo = "blake2b" then "_blake2.blake2b"
  else if algo = "blake2s" then "_blake2.blake2s"
  else "_hashlib.HASH"

/-- Behaviour of `hmac.new(key, msg, digestmod=obj)` when `obj` is a hash
object rather than a constructor, name or module: `obj` is neither
callable nor a string, so the `hmac` library treats it as a PEP 247
module and calls `obj.new()`, which hash objects do not have — every such
call raises `AttributeError` before any MAC is computed. -/
def hmac_new_with_hash_object (hashObj : String) : Except PyError String :=
  .error (.attributeError
    ("'" ++ hashObjTypeName hashObj ++ "' object has no attribute 'new'"))

/-- `hmac_text` (hash_utils.py lines 99-115): lowercases the algorithm
name (the `digestmod` variable computed on lines 106-112 is dead — it is
never used) and calls `hmac.new` with `digestmod=hashlib.new(algo)`, a
hash object.  Consequently the call raises `ValueError` for an
unavailable algorithm and `AttributeError` for every available one. -/
def hmac_text (text : String) (key : String) (algorithm : String) :
    Except PyError String :=
  let algo := pyLower algorithm
  let _keyBytes := utf8Encode key
  let _msgBytes := utf8Encode text
  match hashlib_new algo with
  | .error e => .error e
  | .ok hashObj => hmac_new_with_hash_object hashObj

/-- Whether every character of the string is ASCII (code point < 128). -/
def isAsciiStr (s : String) : Bool := s.data.all (fun c => c.toNat < 128)

/-- `compare_hashes` (hash_utils.py lines 117-121), delegating to
`hmac.compare_digest`: on two `str` arguments the comparison is performed
only when both are ASCII; otherwise `TypeError` is raised. -/
def compare_hashes (a b : String) : Except PyError Bool :=
  if isAsciiStr a ∧ isAsciiStr b then .ok (a == b)
  else .error (.typeError
    "comparing strings with non-ASCII characters is not supported")

/-! ### Auxiliary definitions used by the statements -/

/-- Whether a character is a lowercase hexadecimal digit. -/
def isLowerHexChar (c : Char) : Bool :=
  decide ((48 ≤ c.toNat ∧ c.toNat ≤ 57) ∨ (97 ≤ c.toNat ∧ c.toNat ≤ 102))

/-- A digest result is `ok` with a lowercase hexadecimal string of the
given length. -/
def digestSpec (r : Except PyError String) (n : Nat) : Prop :=
  ∃ d, r = .ok d ∧ d.length = n ∧ d.data.all isLowerHexChar = true

/-- The cumulative totals reported for a given chunk sequence, starting
from a running total `t`. -/
def traceFrom (t : Nat) : List (List Nat) → List Nat
  | [] => []
  | c :: rest => (t + c.length) :: traceFrom (t + c.length) rest

/-! ### Lemmas about chunking and the read loop -/

theorem drop_length_lt {α : Type} {n : Nat} {l : List α}
    (h : ¬ (l.take n).isEmpty) : (l.drop n).length < l.length := by
  rw [List.isEmpty_iff, List.take_eq_nil_iff] at h
  push_neg at h
  simp only [List.length_drop]
  exact Nat.sub_lt (List.length_pos.mpr h.2) (Nat.pos_of_ne_zero h.1)

theorem chunksOfFuel_irrel {α : Type} :
    ∀ fuel fuel' n (l : List α), l.length < fuel → l.length < fuel' →
      chunksOfFuel fuel n l = chunksOfFuel fuel' n l := by
  intro fuel
  induction fuel with
  | zero => intro fuel' n l h; omega
  | succ fuel ih =>
    intro fuel' n l h h'
    cases fuel' with
    | zero => omega
    | succ fuel' =>
      simp only [chunksOfFuel]
      by_cases he : (l.take n).isEmpty
      · simp [he]
      · simp only [he, if_false, Bool.false_eq_true]
        have hd := drop_length_lt he
        rw [ih fuel' n (l.drop n) (by omega) (by omega)]

theorem chunksOf_eq_nil {α : Type} (n : Nat) (l : List α)
    (h : (l.take n).isEmpty) : chunksOf n l = [] := by
  unfold chunksOf
  simp [chunksOfFuel, h]

theorem chunksOf_eq_cons {α : Type} (n : Nat) (l : List α)
    (h : ¬ (l.take n).isEmpty) :
    chunksOf n l = l.take n :: chunksOf n (l.drop n) := by
  have step : chunksOf n l = l.take n :: chunksOfFuel l.length n (l.drop n) := by
    show chunksOfFuel (l.length + 1) n l = _
    simp only [chunksOfFuel]
    simp [h]
  rw [step, chunksOfFuel_irrel l.length ((l.drop n).length + 1) n (l.drop n)
    (drop_length_lt h) (by omega)]
  rfl

theorem flatten_chunksOf {α : Type} (n : Nat) (hn : 1 ≤ n) :
    ∀ l : List α, (chunksOf n l).flatten = l := by
  have H : ∀ m : Nat, ∀ l : List α, l.length = m →
      (chunksOf n l).flatten = l := by
    intro m
    induction m using Nat.strong_induction_on with
    | _ m ih =>
      intro l hl
      by_cases h : (l.take n).isEmpty
      · rw [chunksOf_eq_nil n l h]
        rw [List.isEmpty_iff, List.take_eq_nil_iff] at h
        rcases h with h | h
        · omega
        · simp [h]
      · rw [chunksOf_eq_cons n l h, List.flatten_cons,
          ih (l.drop n).length (hl ▸ drop_length_lt h) _ rfl,
          List.take_append_drop]
  exact fun l => H l.length l rfl

theorem chunksOf_ne_nil {α : Type} (n : Nat) :
    ∀ l : List α, ∀ c ∈ chunksOf n l, c ≠ [] := by
  have H : ∀ m : Nat, ∀ l : List α, l.length = m →
      ∀ c ∈ chunksOf n l, c ≠ [] := by
    intro m
    induction m using Nat.strong_induction_on with
    | _ m ih =>
      intro l hl c hc
      by_cases h : (l.take n).isEmpty
      · rw [chunksOf_eq_nil n l h] at hc
        exact absurd hc (List.not_mem_nil c)
      · rw [chunksOf_eq_cons n l h] at hc
        rw [List.mem_cons] at hc
        rcases hc with hc | hc
        · rw [List.isEmpty_iff] at h
          exact hc ▸ h
        · exact ih (l.drop n).length (hl ▸ drop_length_lt h) _ rfl c hc
  exact fun l => H l.length l rfl

/-- The read loop accumulates exactly the chunk decomposition of the
remaining stream, independently of the progress callback, and reports the
running totals after each chunk. -/
theorem hashFileLoop_spec (n : Nat)
    (cb : Option (Nat → Except CallbackErr Unit)) :
    ∀ l buffer t, hashFileLoop n cb buffer t l =
      (buffer ++ (chunksOf n l).flatten, traceFrom t (chunksOf n l)) := by
  have H : ∀ m : Nat, ∀ l : List Nat, l.length = m → ∀ buffer t,
      hashFileLoop n cb buffer t l =
        (buffer ++ (chunksOf n l).flatten, traceFrom t (chunksOf n l)) := by
    intro m
    induction m using Nat.strong_induction_on with
    | _ m ih =>
      intro l hl buffer t
      by_cases h : (l.take n).isEmpty
      · rw [hashFileLoop, chunksOf_eq_nil n l h]
        simp [h, traceFrom]
      · rw [hashFileLoop, chunksOf_eq_cons n l h]
        simp only [h, dite_false, Bool.false_eq_true]
        rw [ih (l.drop n).length (hl ▸ drop_length_lt h) _ rfl]
        simp [traceFrom, List.flatten_cons, List.append_assoc]
  exact fun l buffer t => H l.length l rfl buffer t

theorem traceFrom_length (cs : List (List Nat)) :
    ∀ t, (traceFrom t cs).length = cs.length := by
  induction cs with
  | nil => intro t; rfl
  | cons c rest ih => intro t; simp [traceFrom, ih]

theorem traceFrom_lt (cs : List (List Nat)) (hcs : ∀ c ∈ cs, c ≠ []) :
    ∀ t, (∀ x ∈ traceFrom t cs, t < x) ∧
      List.Chain' (· < ·) (traceFrom t cs) := by
  induction cs with
  | nil => intro t; simp [traceFrom]
  | cons c rest ih =>
    intro t
    have hc : c ≠ [] := hcs c (by simp)
    have hlen : 0 < c.length := List.length_pos.mpr hc
    have ihr := ih (fun x hx => hcs x (by simp [hx])) (t + c.length)
    constructor
    · intro x hx
      simp only [traceFrom, List.mem_cons] at hx
      rcases hx with hx | hx
      · omega
      · have := ihr.1 x hx
        omega
    · simp only [traceFrom]
      rw [List.chain'_cons']
      refine ⟨?_, ihr.2⟩
      intro y hy
      have hy' := List.mem_of_mem_head? hy
      exact ihr.1 y hy'

theorem traceFrom_getLastD (cs : List (List Nat)) :
    ∀ t, (traceFrom t cs).getLastD t = t + cs.flatten.length := by
  induction cs with
  | nil => intro t; simp [traceFrom]
  | cons c rest ih =>
    intro t
    simp only [traceFrom, List.getLastD_cons, List.flatten_cons,
      List.length_append]
    rw [ih (t + c.length)]
    omega

/-! ### Lemmas about hexadecimal digest formatting -/

theorem mk_length (l : List Char) : (String.mk l).length = l.length := rfl

theorem mk_data (l : List Char) : (String.mk l).data = l := rfl

theorem hexDigitAux_hex : ∀ m, m < 16 → isLowerHexChar (hexDigitAux m) = true := by
  decide

theorem hexDigit_hex (n : Nat) : isLowerHexChar (hexDigit n) = true :=
  hexDigitAux_hex (n % 16) (Nat.mod_lt n (by norm_num))

theorem toHexChars_length : ∀ w n : Nat, (toHexChars w n).length = w := by
  intro w
  induction w with
  | zero => intro n; rfl
  | succ w ih => intro n; simp [toHexChars, ih]

theorem toHexChars_hex :
    ∀ (w n : Nat) (c : Char), c ∈ toHexChars w n → isLowerHexChar c = true := by
  intro w
  induction w with
  | zero => intro n c hc; exact absurd hc (List.not_mem_nil c)
  | succ w ih =>
    intro n c hc
    simp only [toHexChars, List.mem_append, List.mem_singleton] at hc
    rcases hc with hc | hc
    · exact ih _ _ hc
    · exact hc ▸ hexDigit_hex n

theorem toBytesLE_length : ∀ k n : Nat, (toBytesLE k n).length = k := by
  intro k
  induction k with
  | zero => intro n; rfl
  | succ k ih => intro n; simp [toBytesLE, ih]

theorem flatten_map_const_length {β : Type} (f : Nat → List β) (k : Nat)
    (hf : ∀ x, (f x).length = k) :
    ∀ l : List Nat, ((l.map f).flatten).length = k * l.length := by
  intro l
  induction l with
  | nil => simp
  | cons a t ih =>
    simp only [List.map_cons, List.flatten_cons, List.length_append, hf, ih,
      List.length_cons]
    ring

theorem blake2bCompress_length (h block : List Nat) (t : Nat) (last : Bool) :
    (blake2bCompress h block t last).length = 8 := by
  simp [blake2bCompress]

theorem blake2bLoop_length :
    ∀ (rest h : List Nat) (off : Nat), (blake2bLoop h off rest).length = 8 := by
  have H : ∀ m : Nat, ∀ rest : List Nat, rest.length = m → ∀ h off,
      (blake2bLoop h off rest).length = 8 := by
    intro m
    induction m using Nat.strong_induction_on with
    | _ m ih =>
      intro rest hl h off
      rw [blake2bLoop]
      by_cases hr : rest.length ≤ 128
      · simp [hr, blake2bCompress_length]
      · simp only [hr, if_false]
        exact ih (rest.drop 128).length
          (by subst hl; simp only [List.length_drop]; omega) _ rfl _ _
  exact fun rest h off => H rest.length rest rfl h off

theorem blake2bWords_length (msg : List Nat) : (blake2bWords msg).length = 8 :=
  blake2bLoop_length msg _ _

theorem blake2bBytes_length (msg : List Nat) : (blake2bBytes msg).length = 64 := by
  unfold blake2bBytes
  rw [flatten_map_const_length (toBytesLE 8) 8 (fun x => toBytesLE_length 8 x),
    blake2bWords_length]

theorem sha1Hex_length (data : List Nat) : (sha1Hex data).length = 40 := by
  simp only [sha1Hex]
  rw [mk_length]
  simp [List.length_append, toHexChars_length]

theorem sha1Hex_hexchars (data : List Nat) :
    (sha1Hex data).data.all isLowerHexChar = true := by
  simp only [sha1Hex]
  rw [List.all_eq_true]
  intro c hc
  simp only [List.mem_append] at hc
  rcases hc with (((h | h) | h) | h) | h <;> exact toHexChars_hex _ _ _ h

theorem sha256Hex_length (data : List Nat) : (sha256Hex data).length = 64 := by
  simp only [sha256Hex]
  rw [mk_length]
  simp [List.length_append, toHexChars_length]

theorem sha256Hex_hexchars (data : List Nat) :
    (sha256Hex data).data.all isLowerHexChar = true := by
  simp only [sha256Hex]
  rw [List.all_eq_true]
  intro c hc
  simp only [List.mem_append] at hc
  rcases hc with ((((((h | h) | h) | h) | h) | h) | h) | h <;>
    exact toHexChars_hex _ _ _ h

theorem sha512Hex_length (data : List Nat) : (sha512Hex data).length = 128 := by
  simp only [sha512Hex]
  rw [mk_length]
  simp [List.length_append, toHexChars_length]

theorem sha512Hex_hexchars (data : List Nat) :
    (sha512Hex data).data.all isLowerHexChar = true := by
  simp only [sha512Hex]
  rw [List.all_eq_true]
  intro c hc
  simp only [List.mem_append] at hc
  rcases hc with ((((((h | h) | h) | h) | h) | h) | h) | h <;>
    exact toHexChars_hex _ _ _ h

theorem blake2bHex_length (msg : List Nat) : (blake2bHex msg).length = 128 := by
  unfold blake2bHex
  rw [mk_length,
    flatten_map_const_length (toHexChars 2) 2 (fun x => toHexChars_length 2 x),
    blake2bBytes_length]

theorem blake2bHex_hexchars (msg : List Nat) :
    (blake2bHex msg).data.all isLowerHexChar = true := by
  unfold blake2bHex
  rw [mk_data, List.all_eq_true]
  intro c hc
  rw [List.mem_flatten] at hc
  obtain ⟨l, hl, hcl⟩ := hc
  rw [List.mem_map] at hl
  obtain ⟨b, _, rfl⟩ := hl
  exact toHexChars_hex 2 b c hcl

/-! ### Lemmas about the embedded entry points -/

theorem hash_text_eq_map (text algorithm : String) :
    hash_text text algorithm =
      (_get_hasher algorithm).map
        (fun algo => digestHex algo (utf8Encode text)) := by
  unfold hash_text
  cases _get_hasher algorithm <;> rfl

theorem hash_file_chunked_eq_map (stream : List Nat) (algorithm : String)
    (chunk_size : Nat) (cb : Option (Nat → Except CallbackErr Unit)) :
    hash_file_chunked stream algorithm chunk_size cb =
      (_get_hasher algorithm).map
        (fun algo => digestHex algo ((chunksOf chunk_size stream).flatten)) := by
  unfold hash_file_chunked
  rw [hashFileLoop_spec]
  cases _get_hasher algorithm <;> rfl

theorem hash_text_sha1 (text : String) :
    hash_text text "sha1" = .ok (sha1Hex (utf8Encode text)) := rfl

theorem hash_text_sha256 (text : String) :
    hash_text text "sha256" = .ok (sha256Hex (utf8Encode text)) := rfl

theorem hash_text_sha512 (text : String) :
    hash_text text "sha512" = .ok (sha512Hex (utf8Encode text)) := rfl

theorem hash_text_blake2b (text : String) :
    hash_text text "blake2b" = .ok (blake2bHex (utf8Encode text)) := rfl

theorem get_hasher_unsupported (algorithm : String)
    (h : pyLower algorithm ∉ hashlib_algorithms) :
    _get_hasher algorithm =
      .error (.valueError (unsupportedMsg (pyLower algorithm))) := by
  unfold _get_hasher
  rw [if_pos ⟨h, h⟩, if_neg]
  rintro ⟨he, _⟩
  exact h (he ▸ (by decide : ("blake2b" : String) ∈ hashlib_algorithms))

/-! ### The claims -/

/-- C1: for every supported algorithm `A`, every byte content and every
chunk size at least 1, `hash_file_chunked` returns the digest of the full
stream content — for a stream holding the encoding of a string `S`, the
same digest `hash_text S A` returns — so the digest does not depend on
the chunk size, and the empty stream (`S = ""`) yields the digest of the
empty input. -/
theorem C1_hash_file_chunked_eq_hash_text (A : String)
    (_hA : A ∈ DEFAULT_ALGOS) (chunk_size : Nat) (hcs : 1 ≤ chunk_size) :
    (∀ stream : List Nat, hash_file_chunked stream A chunk_size none =
      (_get_hasher A).map (fun algo => digestHex algo stream)) ∧
    (∀ S : String, hash_file_chunked (utf8Encode S) A chunk_size none =
      hash_text S A) := by
  have key : ∀ stream : List Nat,
      hash_file_chunked stream A chunk_size none =
        (_get_hasher A).map (fun algo => digestHex algo stream) := by
    intro stream
    rw [hash_file_chunked_eq_map stream A chunk_size none,
      flatten_chunksOf chunk_size hcs stream]
  exact ⟨key, fun S => by rw [key (utf8Encode S), hash_text_eq_map S A]⟩

/-- C1 witness: the theorem instantiated at algorithm sha256, text "abc"
and chunk size 3. -/
theorem C1_witness :
    hash_file_chunked (utf8Encode "abc") "sha256" 3 none =
      hash_text "abc" "sha256" :=
  (C1_hash_file_chunked_eq_hash_text "sha256" (by decide) 3 (by decide)).2 "abc"

/-- C2: `hmac_text` does not return the standard HMAC value: it passes a
hash object (not a constructor) as `digestmod`, so even the spec's own
example raises `AttributeError`, while the standard HMAC-SHA256
construction assigns the reference value to these inputs. -/
theorem C2_hmac_text_raises_attribute_error :
    hmac_text "mensaje" "clave" "sha256" =
      .error (.attributeError "'_hashlib.HASH' object has no attribute 'new'") ∧
    hmacSha256Spec (utf8Encode "clave") (utf8Encode "mensaje") =
      "17e8847a84636888af5a7abe0910e50a0fa28d6f1d3591a175e6e01fcf80b412" :=
  ⟨rfl, by rfl⟩

/-- C3 counterexample: `hash_text "" "sha256"` is not the 63-character
string the spec designates as the standard SHA-256 empty-string vector
(that string is itself a wrong-length truncation). -/
theorem C3_counterexample :
    hash_text "" "sha256" ≠ Except.ok
      "e3b0c44298fc1c149afbf4c8996fb92427ae41e4649b934ca495991b7852b85" := by
  decide

/-- C3 amended: `hash_text "" "sha256"` equals the actual standard
published SHA-256 empty-string vector, which has 64 hex characters and
ends in `855`. -/
theorem C3_empty_sha256_vector :
    hash_text "" "sha256" = Except.ok
      "e3b0c44298fc1c149afbf4c8996fb92427ae41e4649b934ca495991b7852b855" := by
  rfl

/-- C4: for an algorithm name outside the provider's available set, every
entry point taking an algorithm name fails with the `ValueError` that
models `UnsupportedAlgorithm`, and never returns a digest. -/
theorem C4_unsupported_algorithm_errors (algorithm : String)
    (h : pyLower algorithm ∉ hashlib_algorithms) :
    (∀ text, hash_text text algorithm =
      .error (.valueError (unsupportedMsg (pyLower algorithm)))) ∧
    (∀ (stream : List Nat) (chunk_size : Nat)
      (cb : Option (Nat → Except CallbackErr Unit)),
      hash_file_chunked stream algorithm chunk_size cb =
        .error (.valueError (unsupportedMsg (pyLower algorithm)))) ∧
    (∀ text key, hmac_text text key algorithm =
      .error (.valueError ("unsupported hash type " ++ pyLower algorithm))) := by
  have hg := get_hasher_unsupported algorithm h
  refine ⟨?_, ?_, ?_⟩
  · intro text
    rw [hash_text_eq_map, hg]
    rfl
  · intro stream chunk_size cb
    rw [hash_file_chunked_eq_map, hg]
    rfl
  · intro text key
    unfold hmac_text hashlib_new
    simp only [if_neg h]

/-- C4 witness: the theorem instantiated at the unavailable name
`"md999"`. -/
theorem C4_witness :
    hash_text "x" "md999" =
      .error (.valueError (unsupportedMsg (pyLower "md999"))) ∧
    hash_file_chunked [] "md999" 8192 none =
      .error (.valueError (unsupportedMsg (pyLower "md999"))) ∧
    hmac_text "m" "k" "md999" =
      .error (.valueError ("unsupported hash type " ++ pyLower "md999")) :=
  ⟨(C4_unsupported_algorithm_errors "md999" (by decide)).1 "x",
   (C4_unsupported_algorithm_errors "md999" (by decide)).2.1 [] 8192 none,
   (C4_unsupported_algorithm_errors "md999" (by decide)).2.2 "m" "k"⟩

/-- C5 counterexample: `compare_hashes` applied to two identical non-ASCII
strings does not return `true` — it raises `TypeError` — so the claim
quantified over all strings fails. -/
theorem C5_counterexample : compare_hashes "é" "é" ≠ Except.ok true := by
  decide

/-- C5 amended: restricted to ASCII strings (the format of every digest),
`compare_hashes` returns `true` exactly when the two strings are identical
in content and length. -/
theorem C5_compare_hashes_iff_eq (a b : String) (ha : isAsciiStr a = true)
    (hb : isAsciiStr b = true) :
    compare_hashes a b = .ok true ↔ a = b := by
  unfold compare_hashes
  rw [if_pos ⟨ha, hb⟩]
  simp [Except.ok.injEq, beq_iff_eq]

/-- C5 witness: the amended theorem instantiated at a pair of equal ASCII
strings. -/
theorem C5_witness : compare_hashes "ab" "ab" = Except.ok true :=
  (C5_compare_hashes_iff_eq "ab" "ab" (by decide) (by decide)).mpr rfl

/-- C6: a progress callback — in particular one that raises on every
invocation — never changes the result of `hash_file_chunked`: the
exception is swallowed and the digest equals the one computed with no
callback. -/
theorem C6_callback_errors_swallowed (stream : List Nat)
    (algorithm : String) (chunk_size : Nat)
    (cb : Nat → Except CallbackErr Unit) :
    hash_file_chunked stream algorithm chunk_size (some cb) =
      hash_file_chunked stream algorithm chunk_size none := by
  rw [hash_file_chunked_eq_map, hash_file_chunked_eq_map]

/-- C7: for every input text the digest returned by `hash_text` is a
lowercase hexadecimal string whose length is fixed by the algorithm:
40 for sha1, 64 for sha256, 128 for sha512 and 128 for blake2b. -/
theorem C7_digest_format (text : String) :
    digestSpec (hash_text text "sha1") 40 ∧
    digestSpec (hash_text text "sha256") 64 ∧
    digestSpec (hash_text text "sha512") 128 ∧
    digestSpec (hash_text text "blake2b") 128 :=
  ⟨⟨sha1Hex (utf8Encode text), hash_text_sha1 text,
     sha1Hex_length _, sha1Hex_hexchars _⟩,
   ⟨sha256Hex (utf8Encode text), hash_text_sha256 text,
     sha256Hex_length _, sha256Hex_hexchars _⟩,
   ⟨sha512Hex (utf8Encode text), hash_text_sha512 text,
     sha512Hex_length _, sha512Hex_hexchars _⟩,
   ⟨blake2bHex (utf8Encode text), hash_text_blake2b text,
     blake2bHex_length _, blake2bHex_hexchars _⟩⟩

/-- C9: `compare_hashes` is total exactly on ASCII arguments: with both
strings ASCII it returns the equality verdict, and with any non-ASCII
argument it raises `TypeError` instead of returning a boolean. -/
theorem C9_compare_hashes_ascii_totality (a b : String) :
    (isAsciiStr a = true → isAsciiStr b = true →
      compare_hashes a b = .ok (a == b)) ∧
    (¬ (isAsciiStr a = true ∧ isAsciiStr b = true) →
      compare_hashes a b = .error (.typeError
        "comparing strings with non-ASCII characters is not supported")) := by
  constructor
  · intro ha hb
    unfold compare_hashes
    rw [if_pos ⟨ha, hb⟩]
  · intro h
    unfold compare_hashes
    rw [if_neg h]

/-- C9 witness: both branches instantiated — an ASCII pair returns a
boolean, a non-ASCII argument raises. -/
theorem C9_witness :
    compare_hashes "ab" "ba" = Except.ok ("ab" == "ba") ∧
    compare_hashes "é" "x" = Except.error (.typeError
      "comparing strings with non-ASCII characters is not supported") :=
  ⟨(C9_compare_hashes_ascii_totality "ab" "ba").1 (by decide) (by decide),
   (C9_compare_hashes_ascii_totality "é" "x").2 (by decide)⟩

/-- C10: the cumulative byte counts passed to the progress callback are
strictly increasing, number exactly one per non-empty chunk read (hence
none for an empty stream), and the last one equals the total number of
bytes fed to the hash accumulator. -/
theorem C10_progress_calls_trace (chunk_size : Nat) (stream : List Nat) :
    List.Chain' (· < ·) (progress_calls chunk_size stream) ∧
    (progress_calls chunk_size stream).length =
      (chunksOf chunk_size stream).length ∧
    (progress_calls chunk_size stream).getLastD 0 =
      (hashFileLoop chunk_size none [] 0 stream).1.length ∧
    progress_calls chunk_size [] = [] := by
  have hpc : progress_calls chunk_size stream =
      traceFrom 0 (chunksOf chunk_size stream) := by
    unfold progress_calls
    rw [hashFileLoop_spec]
  have hb : (hashFileLoop chunk_size none [] 0 stream).1 =
      (chunksOf chunk_size stream).flatten := by
    rw [hashFileLoop_spec]
    simp
  refine ⟨?_, ?_, ?_, ?_⟩
  · rw [hpc]
    exact (traceFrom_lt _ (chunksOf_ne_nil chunk_size stream) 0).2
  · rw [hpc, traceFrom_length]
  · rw [hpc, hb, traceFrom_getLastD]
    simp
  · unfold progress_calls
    rw [hashFileLoop_spec, chunksOf_eq_nil chunk_size [] (by simp)]
    rfl

end HashDemo
